import Mathlib

/-!
Shallow embedding of `src/befunge.py`, a Befunge-93 interpreter.

The Python program is a lexer (`Lexer`) producing a lazy token stream over a
jagged character grid, a command set (`Command` subclasses), and a
fetch-decode-execute loop (`BefungeInterpreter.interpret`).  We embed it as a
step machine: one step of `step` corresponds to the interpreter loop consuming
one token from `Lexer.tokens` (string-mode characters are tokens too; entering
and leaving string mode are the extra cursor advances the Python generator
performs).

Modelling decisions, each matching the Python source:
* Grid cells are Unicode code points (`Nat`), since `Put` writes `chr(v)` for
  any `0 ≤ v < 0x110000` (Python allows surrogates, which Lean `Char` cannot
  hold).  `ord` is then the identity.
* Python list indexing `l[i]` for `i : int` wraps negative indices
  (`l[-1]` is the last element) and raises `IndexError` outside
  `-len l ≤ i < len l`; this is `pyIdx?` / `pyNorm?`.
* `random.choice([HeadLeft,HeadRight,HeadUp,HeadDown])` is modelled by an
  explicit stream `rng : ℕ → Fin 4` (0 ↦ left, 1 ↦ right, 2 ↦ up, 3 ↦ down)
  consumed at an index `rix` carried in the state.
* Exceptions: `SyntaxError` (two messages), `IndexError` (list index out of
  range / pop from empty list), and `ValueError` (`chr` / `"{:c}"` on an
  invalid code point, or `int(char)` on a non-decimal digit) become the
  error type `Err`.
* `str.isdigit()` is true for the Unicode code points with
  `Numeric_Type=Decimal` (the 660 decimal digits, on which `int(char)`
  returns the digit's value) or `Numeric_Type=Digit` (superscripts, circled
  digits and the like, on which `int(char)` raises a ValueError).  Both sets
  are embedded as explicit tables extracted from CPython's Unicode database:
  every decimal digit lies in an aligned run `s .. s+9` whose values are
  `0 .. 9` in order.
-/

deriving instance DecidableEq for Except

namespace Befunge

/-- Exceptions the Python interpreter can raise to its caller. -/
inductive Err where
  | syntaxError (msg : String)
  | indexError
  | valueError
deriving DecidableEq, Repr

/-- Normalise a Python list index: `some n` with `n` the real (non-negative)
position when `-len ≤ i < len`, `none` (IndexError) otherwise. -/
def pyNorm? (len : Nat) (i : Int) : Option Nat :=
  if 0 ≤ i then
    if i < (len : Int) then some i.toNat else none
  else
    if 0 ≤ i + (len : Int) then some (i + (len : Int)).toNat else none

/-- Python `l[i]` (read): negative indices count from the end. -/
def pyIdx? (l : List α) (i : Int) : Option α :=
  match pyNorm? l.length i with
  | some n => l.get? n
  | none => none

/-- Python `row[x] = c` on a list of code points. -/
def pySetRow? (row : List Nat) (x : Int) (c : Nat) : Option (List Nat) :=
  match pyNorm? row.length x with
  | some n => some (row.set n c)
  | none => none

/-- Python `program[y][x] = c`: fetch row `y`, assign at column `x`. -/
def pySetGrid? (g : List (List Nat)) (y x : Int) (c : Nat) :
    Option (List (List Nat)) :=
  match pyNorm? g.length y with
  | some ny =>
    match g.get? ny with
    | some row =>
      match pySetRow? row x c with
      | some row' => some (g.set ny row')
      | none => none
    | none => none
  | none => none

/-- `self.program[self.ypos][self.xpos]` with the `try/except IndexError`. -/
def readCell (g : List (List Nat)) (y x : Int) : Option Nat :=
  match pyIdx? g y with
  | some row => pyIdx? row x
  | none => none

/-- The interpreter/lexer state: `Lexer.program/xpos/ypos/dx/dy`,
`BefungeInterpreter._data/_output`, whether the lexer is inside its
string-mode sub-scan, and the number of random choices consumed so far.
The stack's head is the top (Python appends/pops at the list's end). -/
structure State where
  program : List (List Nat)
  xpos : Int
  ypos : Int
  dx : Int
  dy : Int
  stack : List Int
  output : List String
  stringMode : Bool
  rix : Nat
deriving DecidableEq, Repr

/-- `Lexer.advance`. -/
def advance (s : State) : State :=
  { s with xpos := s.xpos + s.dx, ypos := s.ypos + s.dy }

/-- The range starts of the Unicode decimal digits (`Numeric_Type=Decimal`):
each start `s` begins a run `s .. s+9` of code points with
`str.isdigit() = True` and `int(chr(s+d)) = d` for `0 ≤ d ≤ 9`.  Extracted
from CPython's Unicode database, which guarantees the runs are aligned. -/
def decimalDigitStarts : List Nat :=
  [48, 1632, 1776, 1984, 2406, 2534, 2662, 2790, 2918, 3046, 3174, 3302,
   3430, 3558, 3664, 3792, 3872, 4160, 4240, 6112, 6160, 6470, 6608, 6784,
   6800, 6992, 7088, 7232, 7248, 42528, 43216, 43264, 43472, 43504, 43600,
   44016, 65296, 66720, 68912, 69734, 69872, 69942, 70096, 70384, 70736,
   70864, 71248, 71360, 71472, 71904, 72016, 72784, 73040, 73120, 92768,
   92864, 93008, 120782, 120792, 120802, 120812, 120822, 123200, 123632,
   125264, 130032]

/-- `int(char)` on a single character: its decimal-digit value, or `none`
when `int` raises a ValueError. -/
def digitVal? (c : Nat) : Option Nat :=
  (decimalDigitStarts.find? (fun s => s ≤ c && c ≤ s + 9)).map (fun s => c - s)

/-- The code-point ranges with `str.isdigit() = True` but `int(char)`
raising (`Numeric_Type=Digit`, not `Decimal`: superscript, subscript,
circled and parenthesised digits, and a few scripts' digit forms).
Extracted from CPython's Unicode database. -/
def digitOnlyRanges : List (Nat × Nat) :=
  [(178, 179), (185, 185), (4969, 4977), (6618, 6618), (8304, 8304),
   (8308, 8313), (8320, 8329), (9312, 9320), (9332, 9340), (9352, 9360),
   (9450, 9450), (9461, 9469), (9471, 9471), (10102, 10110),
   (10112, 10120), (10122, 10130), (68160, 68163), (69216, 69224),
   (69714, 69722), (127232, 127242)]

/-- `char.isdigit()`: a decimal digit, or a digit that `int` cannot parse. -/
def isDigitCode (c : Nat) : Bool :=
  (digitVal? c).isSome || digitOnlyRanges.any (fun p => p.1 ≤ c && c ≤ p.2)

/-- Python `chr` accepts exactly `0 ≤ v < 0x110000`. -/
def isValidChr (v : Int) : Bool := 0 ≤ v && v < 1114112

/-- The direction set by `random.choice([HeadLeft,HeadRight,HeadUp,HeadDown])`,
indexed by which element the choice picked. -/
def dirOf : Fin 4 → Int × Int
  | 0 => (-1, 0)  -- HeadLeft
  | 1 => (1, 0)   -- HeadRight
  | 2 => (0, -1)  -- HeadUp
  | 3 => (0, 1)   -- HeadDown

/-- The `Command` subclasses with a non-`None` `token`: exactly the keys of
`Command.dict()`. -/
inductive Cmd where
  | noop            -- NoopCommand, space
  | headRight       -- >
  | headLeft        -- <
  | headUp          -- ^
  | headDown        -- v
  | plus            -- +
  | minus           -- -
  | multiply        -- *
  | div             -- /
  | greaterThan     -- backtick
  | mod             -- %
  | notOp           -- !
  | outputInteger   -- .
  | outputAscii     -- ,
  | duplicate       -- :
  | chooseHorizontal -- _
  | chooseVertical  -- |
  | chooseRandom    -- ?
  | swap            -- backslash
  | discard         -- dollar
  | skip            -- #
  | put             -- p
  | get             -- g
  | halt            -- @ (class End)
deriving DecidableEq, Repr

/-- `Command.dict()`: the token's code point resolves to its command class;
`none` for a character that is no command's token. -/
def commandOf (c : Nat) : Option Cmd :=
  if c = 32 then some .noop
  else if c = 62 then some .headRight
  else if c = 60 then some .headLeft
  else if c = 94 then some .headUp
  else if c = 118 then some .headDown
  else if c = 43 then some .plus
  else if c = 45 then some .minus
  else if c = 42 then some .multiply
  else if c = 47 then some .div
  else if c = 96 then some .greaterThan
  else if c = 37 then some .mod
  else if c = 33 then some .notOp
  else if c = 46 then some .outputInteger
  else if c = 44 then some .outputAscii
  else if c = 58 then some .duplicate
  else if c = 95 then some .chooseHorizontal
  else if c = 124 then some .chooseVertical
  else if c = 63 then some .chooseRandom
  else if c = 92 then some .swap
  else if c = 36 then some .discard
  else if c = 35 then some .skip
  else if c = 112 then some .put
  else if c = 103 then some .get
  else if c = 64 then some .halt
  else none

/-- The stack effect of a binary operator's `operate(a, b)` (first popped is
`a`, second is `b`). -/
def binOp (op : Int → Int → Int) (s : State) :
    Except Err State :=
  match s.stack with
  | a :: b :: rest => .ok { s with stack := op a b :: rest }
  | _ => .error .indexError

/-- `command.execute()`.  The `halt` command's execute is `pass` (the
interpreter halts on *seeing* it, before executing). -/
def execCmd (rng : Nat → Fin 4) : Cmd → State → Except Err State
  | .noop, s => .ok s
  | .headRight, s => .ok { s with dx := 1, dy := 0 }
  | .headLeft, s => .ok { s with dx := -1, dy := 0 }
  | .headUp, s => .ok { s with dx := 0, dy := -1 }
  | .headDown, s => .ok { s with dx := 0, dy := 1 }
  | .plus, s => binOp (fun a b => a + b) s
  | .minus, s => binOp (fun a b => b - a) s
  | .multiply, s => binOp (fun a b => a * b) s
  | .div, s => binOp (fun a b => if a = 0 then 0 else Int.fdiv b a) s
  | .greaterThan, s => binOp (fun a b => if b > a then 1 else 0) s
  | .mod, s => binOp (fun a b => if a = 0 then 0 else Int.fmod b a) s
  | .notOp, s =>
    match s.stack with
    | a :: rest => .ok { s with stack := (if a = 0 then 1 else 0) :: rest }
    | _ => .error .indexError
  | .outputInteger, s =>
    match s.stack with
    | a :: rest => .ok { s with stack := rest, output := s.output ++ [toString a] }
    | _ => .error .indexError
  | .outputAscii, s =>
    match s.stack with
    | a :: rest =>
      if isValidChr a then
        .ok { s with stack := rest,
                     output := s.output ++ [String.singleton (Char.ofNat a.toNat)] }
      else .error .valueError
    | _ => .error .indexError
  | .duplicate, s =>
    match s.stack with
    | v :: rest => .ok { s with stack := v :: v :: rest }
    | [] => .ok { s with stack := [0] }
  | .chooseHorizontal, s =>
    match s.stack with
    | a :: rest =>
      if a = 0 then .ok { s with stack := rest, dx := 1, dy := 0 }
      else .ok { s with stack := rest, dx := -1, dy := 0 }
    | _ => .error .indexError
  | .chooseVertical, s =>
    match s.stack with
    | a :: rest =>
      if a = 0 then .ok { s with stack := rest, dx := 0, dy := 1 }
      else .ok { s with stack := rest, dx := 0, dy := -1 }
    | _ => .error .indexError
  | .chooseRandom, s =>
    .ok { s with dx := (dirOf (rng s.rix)).1, dy := (dirOf (rng s.rix)).2,
                 rix := s.rix + 1 }
  | .swap, s =>
    match s.stack with
    | last :: penultimate :: rest =>
      .ok { s with stack := penultimate :: last :: rest }
    | [last] => .ok { s with stack := 0 :: last :: [] }
    | [] => .error .indexError
  | .discard, s =>
    match s.stack with
    | _ :: rest => .ok { s with stack := rest }
    | _ => .error .indexError
  | .skip, s => .ok (advance s)
  | .put, s =>
    match s.stack with
    | y :: x :: v :: rest =>
      if isValidChr v then
        match pySetGrid? s.program y x v.toNat with
        | some g' => .ok { s with program := g', stack := rest }
        | none => .error .indexError
      else .error .valueError
    | _ => .error .indexError
  | .get, s =>
    match s.stack with
    | y :: x :: rest =>
      match readCell s.program y x with
      | some cell => .ok { s with stack := (cell : Int) :: rest }
      | none => .error .indexError
    | _ => .error .indexError
  | .halt, s => .ok s

/-- One step's outcome: continue, the lexer yielded `EofToken`, the loop broke
on the `End` command, or an exception was raised. -/
inductive StepRes where
  | next (s : State)
  | eof (s : State)
  | halt (s : State)
  | err (e : Err)
deriving DecidableEq, Repr

/-- One iteration of the combined `Lexer.tokens` / `interpret` loop:
read the current cell, classify it, execute its effect, advance. -/
def step (rng : Nat → Fin 4) (s : State) : StepRes :=
  if s.stringMode then
    match readCell s.program s.ypos s.xpos with
    | none => .err (.syntaxError "Program ended in string mode")
    | some c =>
      if c = 34 then .next (advance { s with stringMode := false })
      else .next (advance { s with stack := (c : Int) :: s.stack })
  else
    match readCell s.program s.ypos s.xpos with
    | none => .eof s
    | some c =>
      if isDigitCode c then
        match digitVal? c with
        | some d => .next (advance { s with stack := (d : Int) :: s.stack })
        | none => .err .valueError
      else if c = 34 then
        .next (advance { s with stringMode := true })
      else
        match commandOf c with
        | some cmd =>
          if cmd = .halt then .halt s
          else
            match execCmd rng cmd s with
            | .ok s' => .next (advance s')
            | .error e => .err e
        | none => .err (.syntaxError "Illegal character")

/-- `"".join(self._output)`. -/
def joinOut (out : List String) : String := String.join out

/-- Run the loop with the given amount of fuel; `none` means the fuel ran out
(Python would still be looping). -/
def runFuel (rng : Nat → Fin 4) : Nat → State → Option (Except Err String)
  | 0, _ => none
  | fuel + 1, s =>
    match step rng s with
    | .next s' => runFuel rng fuel s'
    | .eof s' => some (.ok (joinOut s'.output))
    | .halt s' => some (.ok (joinOut s'.output))
    | .err e => some (.error e)

/-- Python `string.split('\n')` on a character list: split at every newline,
never collapsing, so the empty string gives one empty row. -/
def splitLines : List Char → List (List Char)
  | [] => [[]]
  | c :: rest =>
    if c = '\n' then [] :: splitLines rest
    else
      match splitLines rest with
      | row :: rows => (c :: row) :: rows
      | [] => [[c]]

/-- `Lexer.read`: split on newlines, each line a list of cells. -/
def loadProgram (src : String) : List (List Nat) :=
  (splitLines src.data).map (fun line => line.map Char.toNat)

/-- A fresh `BefungeInterpreter` after `lexer.read(src)`. -/
def initState (src : String) : State :=
  { program := loadProgram src, xpos := 0, ypos := 0, dx := 1, dy := 0,
    stack := [], output := [], stringMode := false, rix := 0 }

/-- `interpret(src)` with explicit fuel and random stream. -/
def interpretFuel (fuel : Nat) (src : String) (rng : Nat → Fin 4) :
    Option (Except Err String) :=
  runFuel rng fuel (initState src)

/-- The direction vector is one of the four cardinal unit vectors. -/
def isCardinal (dx dy : Int) : Prop :=
  (dx = 1 ∧ dy = 0) ∨ (dx = -1 ∧ dy = 0) ∨ (dx = 0 ∧ dy = 1) ∨ (dx = 0 ∧ dy = -1)

instance (dx dy : Int) : Decidable (isCardinal dx dy) := by
  unfold isCardinal; infer_instance

/-- The tokens of the six binary-operator commands
(`Plus Minus Multiply Div GreaterThan Mod`). -/
def binopCodes : List Nat := [43, 45, 42, 47, 96, 37]

/-- A one-cell `@` grid with a chosen data stack: a convenient concrete state
for exercising single commands. -/
def wState (stk : List Int) : State :=
  { program := [[64]], xpos := 0, ypos := 0, dx := 1, dy := 0,
    stack := stk, output := [], stringMode := false, rix := 0 }

/-! ## Helper lemmas about Python indexing -/

theorem pyNorm?_of_lt {len : Nat} {i : Int} (h0 : 0 ≤ i) (h : i < (len : Int)) :
    pyNorm? len i = some i.toNat := by
  simp [pyNorm?, h0, h]

theorem pyNorm?_of_neg {len : Nat} {i : Int} (h0 : i < 0)
    (h : -(len : Int) ≤ i) : pyNorm? len i = some (i + (len : Int)).toNat := by
  have h1 : ¬ (0 ≤ i) := by omega
  have h2 : 0 ≤ i + (len : Int) := by omega
  simp [pyNorm?, h1, h2]

theorem pyNorm?_none_of_le {len : Nat} {i : Int} (h : (len : Int) ≤ i) :
    pyNorm? len i = none := by
  have h0 : 0 ≤ i := by omega
  have h1 : ¬ i < (len : Int) := by omega
  simp [pyNorm?, h0, h1]

theorem pyIdx?_none_of_le {l : List α} {i : Int} (h : (l.length : Int) ≤ i) :
    pyIdx? l i = none := by
  simp [pyIdx?, pyNorm?_none_of_le h]

theorem pyIdx?_of_lt {l : List α} {i : Int} (h0 : 0 ≤ i)
    (h : i < (l.length : Int)) : pyIdx? l i = l.get? i.toNat := by
  simp [pyIdx?, pyNorm?_of_lt h0 h]

theorem get?_set_self {l : List α} {i : Nat} (a : α) (h : i < l.length) :
    (l.set i a).get? i = some a := by
  rw [List.get?_eq_getElem?, List.getElem?_set_eq_of_lt a h]

/-! ## C1: out-of-bounds read in normal scanning ends the program normally -/

/-- C1.  In normal (non-string-mode) scanning, reading a cell whose row index
is at least the row count, or whose column index is at least that row's
length, is not an error: the very next step is the end-of-program outcome and
the run returns the output units joined so far. -/
theorem scan_past_bounds_halts_normally (rng : Nat → Fin 4) (fuel : Nat)
    (s : State) (hmode : s.stringMode = false)
    (hoob : (s.program.length : Int) ≤ s.ypos ∨
      ∃ row, pyIdx? s.program s.ypos = some row ∧ (row.length : Int) ≤ s.xpos) :
    step rng s = .eof s ∧
      runFuel rng (fuel + 1) s = some (.ok (joinOut s.output)) := by
  have hread : readCell s.program s.ypos s.xpos = none := by
    rcases hoob with h | ⟨row, hrow, hlen⟩
    · simp [readCell, pyIdx?_none_of_le h]
    · simp [readCell, hrow, pyIdx?_none_of_le hlen]
  have hstep : step rng s = .eof s := by
    simp [step, hmode, hread]
  exact ⟨hstep, by simp [runFuel, hstep]⟩

/-- Witness for C1: a one-row program with the cursor past the row's end. -/
theorem scan_past_bounds_halts_normally_witness :
    runFuel (fun _ => 0) 1
      { program := [[64]], xpos := 5, ypos := 0, dx := 1, dy := 0,
        stack := [], output := [], stringMode := false, rix := 0 }
      = some (.ok (joinOut [])) :=
  (scan_past_bounds_halts_normally (fun _ => 0) 0 _ rfl
    (Or.inr ⟨[64], by decide, by decide⟩)).2

/-! ## C2: the halt command `@` stops the run before executing -/

/-- C2.  When the scanner's current cell resolves to the halt command `@`,
the interpreter stops the run before executing that command: the step outcome
is `halt` with the state untouched, and the run returns the output joined so
far.  In particular a program whose only cell is `@` returns `""` with the
stack and grid untouched. -/
theorem halt_command_stops_run (rng : Nat → Fin 4) (s : State)
    (hmode : s.stringMode = false)
    (hread : readCell s.program s.ypos s.xpos = some 64) :
    step rng s = .halt s ∧
      (∀ fuel, runFuel rng (fuel + 1) s = some (.ok (joinOut s.output))) ∧
      step rng (initState "@") = .halt (initState "@") ∧
      interpretFuel 1 "@" rng = some (.ok "") := by
  have hd : isDigitCode 64 = false := by decide
  have hstep : step rng s = .halt s := by
    simp [step, hmode, hread, hd, commandOf]
  exact ⟨hstep, fun fuel => by simp [runFuel, hstep], rfl, rfl⟩

/-- Witness for C2: a `@` in the middle of a larger program also halts with
the output joined so far. -/
theorem halt_command_stops_run_witness :
    runFuel (fun _ => 0) 3
      { program := [[64, 43]], xpos := 0, ypos := 0, dx := 1, dy := 0,
        stack := [7], output := ["a", "b"], stringMode := false, rix := 0 }
      = some (.ok (joinOut ["a", "b"])) :=
  ((halt_command_stops_run (fun _ => 0) _ rfl (by decide)).2.1 2)

/-! ## C3: which conditions raise, and which errors are syntax errors -/

/-- Executing a command never raises a `SyntaxError`: only `IndexError`
(stack underflow, `p`/`g` out of bounds) or `ValueError` (invalid `chr`). -/
theorem execCmd_error_shape (rng : Nat → Fin 4) (cmd : Cmd) (s : State)
    (e : Err) (h : execCmd rng cmd s = .error e) :
    e = .indexError ∨ e = .valueError := by
  cases cmd <;> simp only [execCmd, binOp] at h <;>
    (repeat' split at h) <;> simp_all

/-- C3 counterexample.  The claim says a distinguishable error is raised *iff*
the scan hits an illegal character or an unterminated string.  But `+` on an
empty stack raises too (`pop` from an empty list), and that error is neither
of the two syntax errors, even though the program `"+"` consists of a single
registered command character and never enters string mode. -/
theorem error_without_syntax_condition :
    interpretFuel 2 "+" (fun _ => 0) = some (.error .indexError) ∧
    Err.indexError ≠ .syntaxError "Illegal character" ∧
    Err.indexError ≠ .syntaxError "Program ended in string mode" ∧
    loadProgram "+" = [[43]] ∧ commandOf 43 = some .plus ∧
    isDigitCode 43 = false := by
  exact ⟨rfl, by decide, by decide, by decide, by decide, by decide⟩

/-- C3 amended.  A *syntax* error is raised at a step exactly when normal
scanning reads a character that is no digit (per Python's `str.isdigit`),
no quote and no registered command character, or string mode reads past the
grid.  Scanning a digit that `int` cannot parse (such as `²`) raises a
ValueError instead.  Every step error aborts the run and propagates to the
caller. -/
theorem syntax_error_iff (rng : Nat → Fin 4) (s : State) :
    ((∃ msg, step rng s = .err (.syntaxError msg)) ↔
      ((s.stringMode = false ∧ ∃ c, readCell s.program s.ypos s.xpos = some c ∧
          isDigitCode c = false ∧ c ≠ 34 ∧ commandOf c = none) ∨
       (s.stringMode = true ∧ readCell s.program s.ypos s.xpos = none))) ∧
    (∀ c, s.stringMode = false → readCell s.program s.ypos s.xpos = some c →
      isDigitCode c = true → digitVal? c = none → step rng s = .err .valueError) ∧
    (∀ fuel e, step rng s = .err e →
      runFuel rng (fuel + 1) s = some (.error e)) := by
  refine ⟨⟨?_, ?_⟩, ?_, ?_⟩
  · rintro ⟨msg, hmsg⟩
    cases hm : s.stringMode with
    | true =>
      right
      refine ⟨rfl, ?_⟩
      cases hread : readCell s.program s.ypos s.xpos with
      | none => rfl
      | some c =>
        exfalso
        simp only [step, hm, hread] at hmsg
        by_cases hq : c = 34 <;> simp [hq] at hmsg
    | false =>
      left
      refine ⟨rfl, ?_⟩
      cases hread : readCell s.program s.ypos s.xpos with
      | none => simp [step, hm, hread] at hmsg
      | some c =>
        refine ⟨c, rfl, ?_⟩
        simp only [step, hm, hread] at hmsg
        by_cases hd : isDigitCode c
        · exfalso
          simp only [hd, if_true] at hmsg
          cases hdv : digitVal? c <;> simp [hdv] at hmsg
        · by_cases hq : c = 34
          · exfalso
            have h34 : isDigitCode 34 = false := by decide
            simp [hq, h34] at hmsg
          · cases hcl : commandOf c with
            | some cmd =>
              exfalso
              simp only [hd, hq, hcl, Bool.false_eq_true, if_false] at hmsg
              by_cases hh : cmd = .halt
              · simp [hh] at hmsg
              · simp only [hh, if_false] at hmsg
                cases hex : execCmd rng cmd s with
                | ok s' => simp [hex] at hmsg
                | error e =>
                  simp [hex] at hmsg
                  rcases execCmd_error_shape rng cmd s e hex with h | h <;>
                    simp [h] at hmsg
            | none => exact ⟨by simpa using hd, hq, rfl⟩
  · rintro (⟨hm, c, hread, hd, hq, hcl⟩ | ⟨hm, hread⟩)
    · exact ⟨"Illegal character", by simp [step, hm, hread, hd, hq, hcl]⟩
    · exact ⟨"Program ended in string mode", by simp [step, hm, hread]⟩
  · intro c hm hread hd hdv
    simp [step, hm, hread, hd, hdv]
  · intro fuel e h
    simp [runFuel, h]

/-- Witness for C3: an illegal character (`a`) aborts the run with the
illegal-character syntax error; the superscript digit `²` (isdigit-true but
not `int`-parsable) aborts it with a ValueError; and the Arabic-Indic digit
`٢` is no error at all — it scans as the digit `2`. -/
theorem syntax_error_iff_witness :
    runFuel (fun _ => 0) 1
      { program := [[97]], xpos := 0, ypos := 0, dx := 1, dy := 0,
        stack := [], output := [], stringMode := false, rix := 0 }
      = some (.error (.syntaxError "Illegal character")) ∧
    step (fun _ => 0)
      { program := [[178]], xpos := 0, ypos := 0, dx := 1, dy := 0,
        stack := [], output := [], stringMode := false, rix := 0 }
      = .err .valueError ∧
    interpretFuel 4 "٢.@" (fun _ => 0) = some (.ok "2") :=
  ⟨(syntax_error_iff (fun _ => 0) _).2.2 0 (.syntaxError "Illegal character")
    (by decide),
   (syntax_error_iff (fun _ => 0) _).2.1 178 rfl (by decide) (by decide)
    (by decide),
   rfl⟩

/-! ## C4: division and modulo, zero divisor and Python rounding -/

/-- Python's `%` takes the sign of the divisor also when the divisor is
negative: for `a < 0`, `a < b.fmod a ≤ 0`. -/
theorem fmod_neg_bounds : ∀ (b : Int) {a : Int}, a < 0 →
    a < Int.fmod b a ∧ Int.fmod b a ≤ 0 := by
  intro b a ha
  cases a with
  | ofNat n => simp only [Int.ofNat_eq_natCast] at ha; omega
  | negSucc n =>
    have hns : Int.negSucc n = -((n : Int) + 1) := Int.negSucc_eq n
    cases b with
    | ofNat m =>
      cases m with
      | zero =>
        rw [show Int.ofNat 0 = 0 from rfl, Int.zero_fmod, hns]
        omega
      | succ m =>
        have hfm : Int.fmod (Int.ofNat (m + 1)) (Int.negSucc n) =
            Int.subNatNat (m % (n + 1)) n := rfl
        have hlt : m % (n + 1) < n + 1 := Nat.mod_lt _ (Nat.succ_pos n)
        rw [hfm, Int.subNatNat_eq_coe, hns]
        omega
    | negSucc m =>
      have hfm : Int.fmod (Int.negSucc m) (Int.negSucc n) =
          -(((m + 1) % (n + 1) : Nat) : Int) := rfl
      have hlt : (m + 1) % (n + 1) < n + 1 := Nat.mod_lt _ (Nat.succ_pos n)
      rw [hfm, hns]
      omega

/-- C4.  With at least two stack values, `/` and `%` never raise: with the
first-popped operand `a = 0` both push exactly `0`; with `a ≠ 0`, `/` pushes
the floor of `b / a` and `%` pushes `b mod a` whose sign follows the divisor,
exactly Python's `//` and `%` (`a * (b // a) + (b % a) = b`). -/
theorem div_mod_by_zero_and_sign (rng : Nat → Fin 4) (s : State) (a b : Int)
    (rest : List Int) (hs : s.stack = a :: b :: rest) :
    commandOf 47 = some .div ∧ commandOf 37 = some .mod ∧
    (a = 0 →
      execCmd rng .div s = .ok { s with stack := 0 :: rest } ∧
      execCmd rng .mod s = .ok { s with stack := 0 :: rest }) ∧
    (a ≠ 0 →
      execCmd rng .div s = .ok { s with stack := Int.fdiv b a :: rest } ∧
      execCmd rng .mod s = .ok { s with stack := Int.fmod b a :: rest } ∧
      a * Int.fdiv b a + Int.fmod b a = b ∧
      (0 < a → 0 ≤ Int.fmod b a ∧ Int.fmod b a < a) ∧
      (a < 0 → a < Int.fmod b a ∧ Int.fmod b a ≤ 0)) := by
  refine ⟨rfl, rfl, ?_, ?_⟩
  · intro h0
    exact ⟨by simp [execCmd, binOp, hs, h0], by simp [execCmd, binOp, hs, h0]⟩
  · intro hne
    exact ⟨by simp [execCmd, binOp, hs, hne], by simp [execCmd, binOp, hs, hne],
      Int.fdiv_add_fmod b a,
      fun hpos => ⟨Int.fmod_nonneg' b hpos, Int.fmod_lt_of_pos b hpos⟩,
      fun hneg => fmod_neg_bounds b hneg⟩

/-- Witness for C4: `7 / -2` pushes `-4` and `7 % -2` pushes `-1`
(floor semantics), and a zero divisor pushes `0`. -/
theorem div_mod_witness :
    execCmd (fun _ => 0) .div (wState [-2, 7]) =
      .ok { wState [-2, 7] with stack := [Int.fdiv 7 (-2)] } ∧
    execCmd (fun _ => 0) .mod (wState [-2, 7]) =
      .ok { wState [-2, 7] with stack := [Int.fmod 7 (-2)] } ∧
    execCmd (fun _ => 0) .div (wState [0, 7]) =
      .ok { wState [0, 7] with stack := [0] } :=
  ⟨((div_mod_by_zero_and_sign (fun _ => 0) (wState [-2, 7]) (-2) 7 [] rfl).2.2.2
      (by decide)).1,
   ((div_mod_by_zero_and_sign (fun _ => 0) (wState [-2, 7]) (-2) 7 [] rfl).2.2.2
      (by decide)).2.1,
   ((div_mod_by_zero_and_sign (fun _ => 0) (wState [0, 7]) 0 7 [] rfl).2.2.1
      rfl).1⟩

/-! ## C5: `:` and `\` underflow defaults -/

/-- C5 counterexample.  The claim says `:` and `\` "never raise"; but `\`
(`Swap`) guards only its *second* pop, so on an empty stack its first pop
raises an `IndexError`: the one-character program `\` aborts with an error. -/
theorem swap_on_empty_raises :
    interpretFuel 1 "\\" (fun _ => 0) = some (.error .indexError) ∧
    execCmd (fun _ => 0) .swap (wState []) = .error .indexError ∧
    commandOf 92 = some .swap := by
  exact ⟨rfl, rfl, rfl⟩

/-- C5 amended.  `:` (`Duplicate`) never raises: on an empty stack it pushes
exactly one `0`, and on a non-empty stack it duplicates the top without
consuming it.  `\` (`Swap`) substitutes `0` only for a missing *second*
element: on `[5]` it yields `[5, 0]` (the implied `0` on top), and in general
swaps the top two; but on an *empty* stack its first pop raises. -/
theorem duplicate_swap_defaults (rng : Nat → Fin 4) (s : State) :
    (s.stack = [] → execCmd rng .duplicate s = .ok { s with stack := [0] }) ∧
    (∀ v rest, s.stack = v :: rest →
      execCmd rng .duplicate s = .ok { s with stack := v :: v :: rest }) ∧
    (∀ v, s.stack = [v] →
      execCmd rng .swap s = .ok { s with stack := [0, v] }) ∧
    (∀ a b rest, s.stack = a :: b :: rest →
      execCmd rng .swap s = .ok { s with stack := b :: a :: rest }) ∧
    (s.stack = [] → execCmd rng .swap s = .error .indexError) := by
  refine ⟨?_, ?_, ?_, ?_, ?_⟩
  · intro h; simp [execCmd, h]
  · intro v rest h; simp [execCmd, h]
  · intro v h; simp [execCmd, h]
  · intro a b rest h; simp [execCmd, h]
  · intro h; simp [execCmd, h]

/-- Witness for C5: `:` on the empty stack pushes one `0`; `\` on `[5]`
yields `[5, 0]` (top is the implied `0`). -/
theorem duplicate_swap_defaults_witness :
    execCmd (fun _ => 0) .duplicate (wState []) =
      .ok { wState [] with stack := [0] } ∧
    execCmd (fun _ => 0) .swap (wState [5]) =
      .ok { wState [5] with stack := [0, 5] } :=
  ⟨(duplicate_swap_defaults (fun _ => 0) (wState [])).1 rfl,
   (duplicate_swap_defaults (fun _ => 0) (wState [5])).2.2.1 5 rfl⟩

/-! ## C6: `p` followed by `g` at the same coordinates round-trips -/

/-- C6.  For an in-bounds coordinate (`0 ≤ y <` row count, `0 ≤ x <` that
row's length) and a valid character code `v`, executing `p` with `y, x, v` on
the stack succeeds, consumes the three values, stores code `v` at the cell;
and `g` executed afterwards with `y, x` on the stack pushes exactly `v`. -/
theorem put_get_roundtrip (rng : Nat → Fin 4) (s : State) (y x v : Int)
    (rest : List Int) (row : List Nat)
    (hs : s.stack = y :: x :: v :: rest)
    (hy0 : 0 ≤ y) (hy : y < (s.program.length : Int))
    (hrow : s.program.get? y.toNat = some row)
    (hx0 : 0 ≤ x) (hx : x < (row.length : Int))
    (hv0 : 0 ≤ v) (hv : v < 1114112) :
    ∃ s', execCmd rng .put s = .ok s' ∧
      s'.stack = rest ∧
      readCell s'.program y x = some v.toNat ∧
      ∀ (t : State) (rest2 : List Int), t.program = s'.program →
        t.stack = y :: x :: rest2 →
        execCmd rng .get t = .ok { t with stack := v :: rest2 } := by
  have hnx : x.toNat < row.length := by omega
  have hny : y.toNat < s.program.length := by omega
  have hrow' : s.program[y.toNat]? = some row := by
    rw [← List.get?_eq_getElem?]; exact hrow
  have hset : pySetGrid? s.program y x v.toNat =
      some (s.program.set y.toNat (row.set x.toNat v.toNat)) := by
    simp [pySetGrid?, pyNorm?_of_lt hy0 hy, hrow', pySetRow?,
      pyNorm?_of_lt hx0 hx]
  have hvalid : isValidChr v = true := by simp [isValidChr]; omega
  have hexec : execCmd rng .put s =
      .ok { s with program := s.program.set y.toNat (row.set x.toNat v.toNat),
                   stack := rest } := by
    simp [execCmd, hs, hvalid, hset]
  have hcell : readCell (s.program.set y.toNat (row.set x.toNat v.toNat)) y x
      = some v.toNat := by
    have h1 : pyIdx? (s.program.set y.toNat (row.set x.toNat v.toNat)) y =
        some (row.set x.toNat v.toNat) := by
      have hylen : y < ((s.program.set y.toNat
          (row.set x.toNat v.toNat)).length : Int) := by
        rw [List.length_set]; exact hy
      rw [pyIdx?_of_lt hy0 hylen]
      exact get?_set_self _ hny
    have h2 : pyIdx? (row.set x.toNat v.toNat) x = some v.toNat := by
      have hxlen : x < ((row.set x.toNat v.toNat).length : Int) := by
        rw [List.length_set]; exact hx
      rw [pyIdx?_of_lt hx0 hxlen]
      exact get?_set_self _ hnx
    simp [readCell, h1, h2]
  refine ⟨_, hexec, rfl, hcell, ?_⟩
  intro t rest2 ht hstk
  have : readCell t.program y x = some v.toNat := by rw [ht]; exact hcell
  simp [execCmd, hstk, this, Int.toNat_of_nonneg hv0]

/-- Witness for C6: write code 65 at row 0, column 1 of a 1×2 grid, then read
it back. -/
theorem put_get_roundtrip_witness :
    ∃ s', execCmd (fun _ => 0) .put
        { program := [[64, 64]], xpos := 0, ypos := 0, dx := 1, dy := 0,
          stack := [0, 1, 65], output := [], stringMode := false, rix := 0 }
        = .ok s' ∧
      s'.stack = [] ∧
      readCell s'.program 0 1 = some 65 ∧
      ∀ (t : State) (rest2 : List Int), t.program = s'.program →
        t.stack = 0 :: 1 :: rest2 →
        execCmd (fun _ => 0) .get t = .ok { t with stack := 65 :: rest2 } :=
  put_get_roundtrip (fun _ => 0) _ 0 1 65 [] [64, 64] rfl
    (by decide) (by decide) (by decide) (by decide) (by decide)
    (by decide) (by decide)

/-! ## C7: binary operators pop two, push one, and touch nothing else -/

/-- The six binary-operator commands. -/
def binopCmds : List Cmd :=
  [.plus, .minus, .multiply, .div, .greaterThan, .mod]

/-- C7.  Each binary operator (`+ - * / \` %`), on a stack with at least two
elements, pops exactly two values and pushes exactly one — the depth drops by
one — and leaves the grid, the cursor position and direction, and the output
accumulator unchanged. -/
theorem binop_frame (rng : Nat → Fin 4) (s : State) (cmd : Cmd) (a b : Int)
    (rest : List Int) (hc : cmd ∈ binopCmds) (hs : s.stack = a :: b :: rest) :
    ∃ s', execCmd rng cmd s = .ok s' ∧
      (∃ r, s'.stack = r :: rest) ∧
      s'.stack.length + 1 = s.stack.length ∧
      s'.program = s.program ∧ s'.dx = s.dx ∧ s'.dy = s.dy ∧
      s'.output = s.output ∧ s'.xpos = s.xpos ∧ s'.ypos = s.ypos := by
  have h : ∃ r, execCmd rng cmd s = .ok { s with stack := r :: rest } := by
    fin_cases hc
    · exact ⟨a + b, by simp [execCmd, binOp, hs]⟩
    · exact ⟨b - a, by simp [execCmd, binOp, hs]⟩
    · exact ⟨a * b, by simp [execCmd, binOp, hs]⟩
    · exact ⟨if a = 0 then 0 else Int.fdiv b a, by simp [execCmd, binOp, hs]⟩
    · exact ⟨if b > a then 1 else 0, by simp [execCmd, binOp, hs]⟩
    · exact ⟨if a = 0 then 0 else Int.fmod b a, by simp [execCmd, binOp, hs]⟩
  obtain ⟨r, hr⟩ := h
  exact ⟨_, hr, ⟨r, rfl⟩, by simp [hs], rfl, rfl, rfl, rfl, rfl, rfl⟩

/-- Witness for C7: `+` on stack `[2, 3, 9]` (top first). -/
theorem binop_frame_witness :
    ∃ s', execCmd (fun _ => 0) .plus (wState [2, 3, 9]) = .ok s' ∧
      (∃ r, s'.stack = r :: [9]) ∧
      s'.stack.length + 1 = (wState [2, 3, 9]).stack.length ∧
      s'.program = (wState [2, 3, 9]).program ∧
      s'.dx = (wState [2, 3, 9]).dx ∧ s'.dy = (wState [2, 3, 9]).dy ∧
      s'.output = (wState [2, 3, 9]).output ∧
      s'.xpos = (wState [2, 3, 9]).xpos ∧ s'.ypos = (wState [2, 3, 9]).ypos :=
  binop_frame (fun _ => 0) (wState [2, 3, 9]) .plus 2 3 [9]
    (by decide) rfl

/-! ## C8: the direction vector is always one of the four cardinals -/

theorem dirOf_cardinal (k : Fin 4) : isCardinal (dirOf k).1 (dirOf k).2 := by
  fin_cases k <;> decide

/-- Every command that changes the direction sets it to a cardinal unit
vector. -/
theorem execCmd_preserves_cardinal (rng : Nat → Fin 4) (cmd : Cmd)
    (s s' : State) (h : execCmd rng cmd s = .ok s')
    (hc : isCardinal s.dx s.dy) : isCardinal s'.dx s'.dy := by
  have hd := dirOf_cardinal (rng s.rix)
  cases cmd <;> simp only [execCmd, binOp, advance] at h <;>
    (repeat' split at h) <;> (try cases h) <;> simp_all [isCardinal]

/-- C8.  The cursor's direction starts as `(1, 0)` and after every step of
every run remains one of the four cardinal unit vectors `(1,0)`, `(-1,0)`,
`(0,1)`, `(0,-1)`. -/
theorem direction_always_cardinal (rng : Nat → Fin 4) :
    (∀ src, isCardinal (initState src).dx (initState src).dy) ∧
    (∀ s s', isCardinal s.dx s.dy → step rng s = .next s' →
      isCardinal s'.dx s'.dy) := by
  constructor
  · intro src; exact Or.inl ⟨rfl, rfl⟩
  · intro s s' hc h
    by_cases hm : s.stringMode = true
    · simp only [step, hm, if_true] at h
      cases hread : readCell s.program s.ypos s.xpos with
      | none => simp [hread] at h
      | some c =>
        simp only [hread] at h
        split at h <;> (cases h; simpa [advance] using hc)
    · have hm' : s.stringMode = false := by
        cases hmv : s.stringMode
        · rfl
        · exact absurd hmv hm
      simp only [step, hm', Bool.false_eq_true, if_false] at h
      cases hread : readCell s.program s.ypos s.xpos with
      | none => simp [hread] at h
      | some c =>
        simp only [hread] at h
        by_cases hdg : isDigitCode c = true
        · simp only [hdg, if_true] at h
          cases hdv : digitVal? c with
          | none => simp [hdv] at h
          | some d =>
            simp only [hdv] at h
            cases h; simpa [advance] using hc
        · simp only [hdg, if_false] at h
          by_cases hq : c = 34
          · simp only [hq, if_true, if_pos] at h
            cases h; simpa [advance] using hc
          · simp only [hq, if_false] at h
            cases hcmd : commandOf c with
            | none => simp [hcmd] at h
            | some cmd =>
              simp only [hcmd] at h
              by_cases hh : cmd = .halt
              · simp [hh] at h
              · simp only [hh, if_false] at h
                cases hex : execCmd rng cmd s with
                | error e => simp [hex] at h
                | ok t =>
                  simp only [hex] at h
                  cases h
                  simpa [advance] using
                    execCmd_preserves_cardinal rng cmd s t hex hc

/-- Witness for C8: a cursor heading down that reads `>` ends up heading
right — still cardinal. -/
theorem direction_always_cardinal_witness :
    isCardinal
      ({ program := [[62]], xpos := 1, ypos := 0, dx := 1, dy := 0,
         stack := [], output := [], stringMode := false, rix := 0 } : State).dx
      ({ program := [[62]], xpos := 1, ypos := 0, dx := 1, dy := 0,
         stack := [], output := [], stringMode := false, rix := 0 } : State).dy :=
  (direction_always_cardinal (fun _ => 0)).2
    { program := [[62]], xpos := 0, ypos := 0, dx := 0, dy := 1,
      stack := [], output := [], stringMode := false, rix := 0 }
    _ (by decide) (by decide)

/-! ## C9: determinism only modulo the random stream -/

/-- C9 counterexample.  `interpret` is *not* a pure function of the source
string alone: the program `?1.@` returns `"1"` when the random choice is
`HeadRight` and `""` when it is `HeadLeft` (the cursor wraps to the trailing
`@`). -/
theorem interpret_depends_on_randomness :
    interpretFuel 10 "?1.@" (fun _ => 1) = some (.ok "1") ∧
    interpretFuel 10 "?1.@" (fun _ => 0) = some (.ok "") ∧
    (some (Except.ok "1") : Option (Except Err String)) ≠ some (.ok "") := by
  exact ⟨rfl, rfl, by decide⟩

/-- Only `ChooseRandomDirection` consults the random source. -/
theorem execCmd_rng_irrel (rng1 rng2 : Nat → Fin 4) (cmd : Cmd) (s : State)
    (h : cmd ≠ .chooseRandom) : execCmd rng1 cmd s = execCmd rng2 cmd s := by
  cases cmd <;> first | rfl | exact absurd rfl h

/-- Characters beyond every token's code point resolve to no command. -/
theorem commandOf_ge (c : Nat) (hb : 125 ≤ c) : commandOf c = none := by
  have h1 : c ≠ 32 := by omega
  have h2 : c ≠ 62 := by omega
  have h3 : c ≠ 60 := by omega
  have h4 : c ≠ 94 := by omega
  have h5 : c ≠ 118 := by omega
  have h6 : c ≠ 43 := by omega
  have h7 : c ≠ 45 := by omega
  have h8 : c ≠ 42 := by omega
  have h9 : c ≠ 47 := by omega
  have h10 : c ≠ 96 := by omega
  have h11 : c ≠ 37 := by omega
  have h12 : c ≠ 33 := by omega
  have h13 : c ≠ 46 := by omega
  have h14 : c ≠ 44 := by omega
  have h15 : c ≠ 58 := by omega
  have h16 : c ≠ 95 := by omega
  have h17 : c ≠ 124 := by omega
  have h18 : c ≠ 63 := by omega
  have h19 : c ≠ 92 := by omega
  have h20 : c ≠ 36 := by omega
  have h21 : c ≠ 35 := by omega
  have h22 : c ≠ 112 := by omega
  have h23 : c ≠ 103 := by omega
  have h24 : c ≠ 64 := by omega
  simp [commandOf, h1, h2, h3, h4, h5, h6, h7, h8, h9, h10, h11, h12,
    h13, h14, h15, h16, h17, h18, h19, h20, h21, h22, h23, h24]

/-- `?` is the only character resolving to `ChooseRandomDirection`. -/
theorem commandOf_chooseRandom (c : Nat)
    (h : commandOf c = some .chooseRandom) : c = 63 := by
  by_cases hb : c < 125
  · interval_cases c <;> revert h <;> decide
  · rw [commandOf_ge c (by omega)] at h
    exact absurd h (by simp)

/-- C9 amended.  `interpret` is deterministic only given the stream of random
directions: a step whose current cell is not the `?` command is identical
under any two random streams, so two runs can differ only through `?`. -/
theorem step_deterministic_off_random (rng1 rng2 : Nat → Fin 4) (s : State)
    (h : s.stringMode = true ∨
      ∀ c, readCell s.program s.ypos s.xpos = some c → c ≠ 63) :
    step rng1 s = step rng2 s := by
  by_cases hm : s.stringMode = true
  · simp only [step, hm, if_true]
  · have hm' : s.stringMode = false := by
      cases hmv : s.stringMode
      · rfl
      · exact absurd hmv hm
    have hc : ∀ c, readCell s.program s.ypos s.xpos = some c → c ≠ 63 := by
      rcases h with h' | h'
      · exact absurd (hm' ▸ h') (by simp)
      · exact h'
    simp only [step, hm', Bool.false_eq_true, if_false]
    cases hread : readCell s.program s.ypos s.xpos with
    | none => rfl
    | some c =>
      simp only [hread]
      cases hcmd : commandOf c with
      | none => rfl
      | some cmd =>
        simp only [hcmd]
        have hne : cmd ≠ .chooseRandom := by
          intro hh
          subst hh
          exact hc c hread (commandOf_chooseRandom c hcmd)
        rw [execCmd_rng_irrel rng1 rng2 cmd s hne]

/-- Witness for C9's amended theorem: on a cell holding `@` the step is the
same under two different random streams. -/
theorem step_deterministic_off_random_witness :
    step (fun _ => 1) (wState []) = step (fun _ => 0) (wState []) :=
  step_deterministic_off_random (fun _ => 1) (fun _ => 0) (wState [])
    (Or.inr (fun c hc => by
      rw [show readCell (wState []).program (wState []).ypos (wState []).xpos
        = some 64 from rfl] at hc
      injection hc with h
      omega))

/-! ## C10: negative in-range coordinates wrap, Python style -/

theorem get?_length_sub_one {l : List α} (h : l ≠ []) :
    l.get? (l.length - 1) = some (l.getLast h) := by
  rw [List.getLast_eq_getElem, List.get?_eq_getElem?]
  exact List.getElem?_eq_getElem _

/-- C10.  A negative coordinate whose magnitude does not exceed the
dimension is not out of bounds: it wraps to index from the end.  Normal
scanning at column `-1` of a non-empty row reads that row's *last* character
(and does not yield end-of-program), and `g`/`p` read/write through the same
wrapping index computation (`pyNorm?`) instead of failing. -/
theorem negative_index_wraps (rng : Nat → Fin 4) (s : State) (row : List Nat)
    (hmode : s.stringMode = false)
    (hrow : pyIdx? s.program s.ypos = some row)
    (hne : row ≠ [])
    (hx : s.xpos = -1) :
    readCell s.program s.ypos s.xpos = some (row.getLast hne) ∧
    (∀ t, step rng s ≠ .eof t) ∧
    (∀ (len : Nat) (i : Int), -(len : Int) ≤ i → i < 0 →
      pyNorm? len i = some (i + (len : Int)).toNat) ∧
    (∀ (t : State) (y x : Int) (rest : List Int) (c : Nat),
      t.stack = y :: x :: rest →
      readCell t.program y x = some c →
      execCmd rng .get t = .ok { t with stack := (c : Int) :: rest }) ∧
    (∀ (t : State) (y x v : Int) (rest : List Int) (g' : List (List Nat)),
      t.stack = y :: x :: v :: rest → 0 ≤ v → v < 1114112 →
      pySetGrid? t.program y x v.toNat = some g' →
      execCmd rng .put t = .ok { t with program := g', stack := rest }) := by
  have hlen : 0 < row.length := List.length_pos.mpr hne
  have hnorm : pyNorm? row.length (-1) =
      some ((-1 : Int) + (row.length : Int)).toNat :=
    pyNorm?_of_neg (by omega) (by omega)
  have htn : ((-1 : Int) + (row.length : Int)).toNat = row.length - 1 := by
    omega
  have hcell : readCell s.program s.ypos s.xpos = some (row.getLast hne) := by
    have h1 : readCell s.program s.ypos s.xpos = pyIdx? row s.xpos := by
      simp [readCell, hrow]
    have h2 : pyIdx? row (-1) = row.get? (row.length - 1) := by
      simp [pyIdx?, hnorm, htn]
    rw [h1, hx, h2]
    exact get?_length_sub_one hne
  refine ⟨hcell, ?_, fun len i h1 h2 => pyNorm?_of_neg h2 h1, ?_, ?_⟩
  · intro t ht
    simp only [step, hmode, Bool.false_eq_true, if_false, hcell] at ht
    repeat' split at ht
    all_goals simp_all
  · intro t y x rest c hstk hcellt
    simp [execCmd, hstk, hcellt]
  · intro t y x v rest g' hstk hv0 hv hset
    have hvalid : isValidChr v = true := by simp [isValidChr]; omega
    simp [execCmd, hstk, hvalid, hset]

/-- Witness for C10: in the grid `[[10,20],[30,40]]`, `g` with `y = -1` and
`x = -2` on the stack reads the wrapped cell `(row 1, column 0) = 30`. -/
theorem negative_index_wraps_witness :
    execCmd (fun _ => 0) .get
      { program := [[10, 20], [30, 40]], xpos := -1, ypos := 0, dx := 1,
        dy := 0, stack := [-1, -2], output := [], stringMode := false,
        rix := 0 }
      = .ok { program := [[10, 20], [30, 40]], xpos := -1, ypos := 0, dx := 1,
              dy := 0, stack := [30], output := [], stringMode := false,
              rix := 0 } :=
  (negative_index_wraps (fun _ => 0)
    { program := [[10, 20], [30, 40]], xpos := -1, ypos := 0, dx := 1,
      dy := 0, stack := [-1, -2], output := [], stringMode := false,
      rix := 0 }
    [10, 20] rfl (by decide) (by decide) rfl).2.2.2.1
    { program := [[10, 20], [30, 40]], xpos := -1, ypos := 0, dx := 1,
      dy := 0, stack := [-1, -2], output := [], stringMode := false,
      rix := 0 }
    (-1) (-2) [] 30 rfl (by decide)

end Befunge
